import Mathlib

/-!
Shallow embedding of the `TransactionAnalyzer` class from `src/files/index.js`
(an in-memory transaction ledger analyzer), together with proofs checking the
natural-language specification against it.

Modelling conventions:

* The store's mutable array `this.transactions` is modelled as a
  `List Transaction`; the one mutating method (`addTransaction`, a `push`)
  becomes a function returning the new list, and every query is a pure
  function of the list — faithful to the source, whose queries use only
  non-mutating array methods (`filter`, `map`, `reduce`, `find`).
* A JavaScript `Date` produced by `new Date(string)` is modelled as
  `Option Date`: `some d` for a successfully parsed calendar date,
  `none` for an Invalid Date (whose time value is NaN, so that every
  relational comparison against it is false, and whose
  `toLocaleString` month label is the string "Invalid Date").
  Comparison of valid dates by time value is day-granularity lexicographic
  comparison of (year, month, day).
* `parseFloat(t.transaction_amount)` is modelled by storing the parsed
  numeric value as a rational (`ℚ`) in the record; JS float arithmetic is
  modelled by exact rational arithmetic.  The division in
  `calculateAverageTransactionAmount` is modelled by `jsDiv`, which returns
  `none` for the non-finite result JS produces on division by zero
  (NaN for 0/0).
* A JS object used as a counter dictionary (`acc[k] = (acc[k] || 0) + 1`)
  is modelled as an association list `List (String × Nat)` whose key order
  is insertion order of first occurrence, exactly the enumeration order of
  `Object.keys` for non-index string keys.  An absent property access
  (`count.debit` when no debit was counted) is `none` (JS `undefined`), and
  `jsGtOpt` models the JS `>` on such possibly-undefined values: any
  comparison involving `undefined` (NaN after coercion) is false.
* `Array.prototype.reduce` with no initial value on an empty array throws a
  TypeError; `reduceNoInit` models this by returning `none`.
-/

/-- A calendar date as parsed from a `transaction_date` string:
year, 1-indexed month, day of month. -/
structure Date where
  year : Int
  month : Nat
  day : Nat
deriving DecidableEq, Repr

/-- Day-granularity order on valid dates, i.e. comparison of the time values
of the corresponding UTC midnights: lexicographic on (year, month, day). -/
def Date.le (a b : Date) : Prop :=
  a.year < b.year ∨ (a.year = b.year ∧
    (a.month < b.month ∨ (a.month = b.month ∧ a.day ≤ b.day)))

/-- Strict version of `Date.le`. -/
def Date.lt (a b : Date) : Prop :=
  a.year < b.year ∨ (a.year = b.year ∧
    (a.month < b.month ∨ (a.month = b.month ∧ a.day < b.day)))

instance (a b : Date) : Decidable (Date.le a b) := by
  unfold Date.le; infer_instance

instance (a b : Date) : Decidable (Date.lt a b) := by
  unfold Date.lt; infer_instance

/-- JS `x <= y` on date time values, where either side may be an Invalid
Date (`none`): a comparison involving NaN is false. -/
def jdLe : Option Date → Option Date → Bool
  | some a, some b => decide (Date.le a b)
  | _, _ => false

/-- JS `x < y` on date time values, where either side may be an Invalid
Date (`none`): a comparison involving NaN is false. -/
def jdLt : Option Date → Option Date → Bool
  | some a, some b => decide (Date.lt a b)
  | _, _ => false

/-- A transaction record.  `transaction_date` holds the result of
`new Date(transaction_date_string)` and `transaction_amount` the result of
`parseFloat(transaction_amount_string)`, pre-parsed per the modelling
conventions above. -/
structure Transaction where
  transaction_id : String
  transaction_date : Option Date
  transaction_amount : ℚ
  transaction_type : String
  transaction_description : String
  merchant_name : String
  card_type : String
deriving DecidableEq, Repr

/-- English month name, as produced by
`toLocaleString('default', \x7bmonth: 'long'\x7d)` in the default (en) locale. -/
def monthName : Nat → String
  | 1 => "January"
  | 2 => "February"
  | 3 => "March"
  | 4 => "April"
  | 5 => "May"
  | 6 => "June"
  | 7 => "July"
  | 8 => "August"
  | 9 => "September"
  | 10 => "October"
  | 11 => "November"
  | 12 => "December"
  | _ => ""

/-- The grouping label
`new Date(t.transaction_date).toLocaleString('default', \x7bmonth: 'long', year: 'numeric'\x7d)`:
e.g. "January 2019" for a valid date, "Invalid Date" for an invalid one. -/
def monthLabel : Option Date → String
  | none => "Invalid Date"
  | some d => monthName d.month ++ " " ++ toString d.year

/-- Property read `c[key]` on a counter object modelled as an association
list: `none` is JS `undefined` (absent property). -/
def getCount? : List (String × Nat) → String → Option Nat
  | [], _ => none
  | (k, n) :: rest, key => if k = key then some n else getCount? rest key

/-- Property read `c[key]` for a key known to be present (e.g. taken from
`Object.keys(c)`), defaulting to 0 when absent. -/
def getCount (c : List (String × Nat)) (key : String) : Nat :=
  (getCount? c key).getD 0

/-- One step `acc[k] = (acc[k] || 0) + 1` of the counting reduces: increment
the entry for `k`, appending a fresh entry (insertion order of first
occurrence, as JS objects enumerate string keys) when absent. -/
def bump : List (String × Nat) → String → List (String × Nat)
  | [], k => [(k, 1)]
  | (k', n) :: rest, k =>
      if k' = k then (k', n + 1) :: rest else (k', n) :: bump rest k

/-- JS `a > b` where both sides may be `undefined` (absent counter entries):
`undefined` coerces to NaN, making the comparison false. -/
def jsGtOpt : Option Nat → Option Nat → Bool
  | some a, some b => decide (b < a)
  | _, _ => false

/-- `Array.prototype.reduce(f)` with no initial value: throws (modelled as
`none`) on an empty array, otherwise folds from the first element. -/
def reduceNoInit {α : Type} (f : α → α → α) : List α → Option α
  | [] => none
  | x :: xs => some (xs.foldl f x)

namespace TransactionAnalyzer

/-- `addTransaction(transaction)`: `this.transactions.push(transaction)`. -/
def addTransaction (ts : List Transaction) (t : Transaction) : List Transaction :=
  ts ++ [t]

/-- `getAllTransaction()`: returns `this.transactions`. -/
def getAllTransaction (ts : List Transaction) : List Transaction :=
  ts

/-- `calculateTotalAmount()`:
`this.transactions.reduce((total, t) => total + parseFloat(t.transaction_amount), 0)`. -/
def calculateTotalAmount (ts : List Transaction) : ℚ :=
  ts.foldl (fun total t => total + t.transaction_amount) 0

/-- JS truthiness test used by `calculateTotalAmountByDate`: `!year` is true
when the argument is absent/null (`none`) or 0. -/
def jsFalsy : Option Int → Bool
  | none => true
  | some n => n == 0

/-- JS strict equality `proj(date) === c` between a date component accessor
and a supplied argument: the accessors of an Invalid Date yield NaN, which
is strictly equal to nothing, and a comparison against an absent argument
is never reached with `true` (it is short-circuited by `!arg`). -/
def jsComponentEq (od : Option Date) (c : Option Int) (proj : Date → Int) : Bool :=
  match od, c with
  | some d, some v => proj d == v
  | _, _ => false

/-- The filter predicate of `calculateTotalAmountByDate`:
`(!year || date.getFullYear() === year) && (!month || date.getMonth() + 1 === month) && (!day || date.getDate() === day)`.
`getMonth()` is 0-indexed in JS; `getMonth() + 1` is the 1-indexed month
stored in `Date.month`, and `getDate()` is the day of month. -/
def byDatePred (year month day : Option Int) (t : Transaction) : Bool :=
  (jsFalsy year || jsComponentEq t.transaction_date year (fun d => d.year)) &&
  (jsFalsy month || jsComponentEq t.transaction_date month (fun d => (d.month : Int))) &&
  (jsFalsy day || jsComponentEq t.transaction_date day (fun d => (d.day : Int)))

/-- `calculateTotalAmountByDate(year, month, day)`: filter by the supplied
date components, then sum the parsed amounts. -/
def calculateTotalAmountByDate (ts : List Transaction)
    (year month day : Option Int) : ℚ :=
  (ts.filter (byDatePred year month day)).foldl
    (fun total t => total + t.transaction_amount) 0

/-- `getTransactionByType(type)`:
`this.transactions.filter(t => t.transaction_type === type)`. -/
def getTransactionByType (ts : List Transaction) (ty : String) : List Transaction :=
  ts.filter (fun t => t.transaction_type == ty)

/-- `getTransactionsInDateRange(startDate, endDate)`: keeps records with
`date >= start && date <= end` on time values (`x >= y` is `y <= x`). -/
def getTransactionsInDateRange (ts : List Transaction)
    (start stop : Option Date) : List Transaction :=
  ts.filter (fun t => jdLe start t.transaction_date && jdLe t.transaction_date stop)

/-- `getTransactionsByMerchant(merchantName)`: exact match on `merchant_name`. -/
def getTransactionsByMerchant (ts : List Transaction) (merchantName : String) :
    List Transaction :=
  ts.filter (fun t => t.merchant_name == merchantName)

/-- JS division `a / b`, which is non-finite when `b = 0` (NaN for 0/0,
signed infinity otherwise): the non-finite results are modelled as `none`. -/
def jsDiv (a b : ℚ) : Option ℚ :=
  if b = 0 then none else some (a / b)

/-- `calculateAverageTransactionAmount()`:
`this.calculateTotalAmount() / this.transactions.length`. -/
def calculateAverageTransactionAmount (ts : List Transaction) : Option ℚ :=
  jsDiv (calculateTotalAmount ts) ts.length

/-- `calculateTotalDebitAmount()`: sum of parsed amounts over
`getTransactionByType('debit')`. -/
def calculateTotalDebitAmount (ts : List Transaction) : ℚ :=
  (getTransactionByType ts "debit").foldl
    (fun total t => total + t.transaction_amount) 0

/-- The counting reduce shared by the month-grouping operations: build the
counter object keyed by month label, keys in first-seen order. -/
def monthCounts (ts : List Transaction) : List (String × Nat) :=
  ts.foldl (fun acc t => bump acc (monthLabel t.transaction_date)) []

/-- `findMostTransactionsMonth()`: count records per month label, then
`Object.keys(count).reduce((a, b) => count[a] > count[b] ? a : b)`
(no initial value: throws, i.e. `none`, on an empty store). -/
def findMostTransactionsMonth (ts : List Transaction) : Option String :=
  let count := monthCounts ts
  reduceNoInit (fun a b => if getCount count b < getCount count a then a else b)
    (count.map Prod.fst)

/-- `findMostDebitTransactionMonth()`: the same algorithm applied to
`getTransactionByType('debit')`. -/
def findMostDebitTransactionMonth (ts : List Transaction) : Option String :=
  let count := monthCounts (getTransactionByType ts "debit")
  reduceNoInit (fun a b => if getCount count b < getCount count a then a else b)
    (count.map Prod.fst)

/-- The counting reduce of `mostTransactionTypes`: build the counter object
keyed by `transaction_type`. -/
def typeCounts (ts : List Transaction) : List (String × Nat) :=
  ts.foldl (fun acc t => bump acc t.transaction_type) []

/-- `mostTransactionTypes()`: `count.debit > count.credit` returns 'debit',
`count.credit > count.debit` returns 'credit', otherwise 'equal'; absent
entries read as `undefined`, and any `>` against `undefined` is false. -/
def mostTransactionTypes (ts : List Transaction) : String :=
  let count := typeCounts ts
  if jsGtOpt (getCount? count "debit") (getCount? count "credit") then "debit"
  else if jsGtOpt (getCount? count "credit") (getCount? count "debit") then "credit"
  else "equal"

/-- `getTransactionsBeforeDate(date)`: keeps records with
`new Date(t.transaction_date) < end` on time values. -/
def getTransactionsBeforeDate (ts : List Transaction) (date : Option Date) :
    List Transaction :=
  ts.filter (fun t => jdLt t.transaction_date date)

/-- `findTransactionById(id)`:
`this.transactions.find(t => t.transaction_id === id) || null`
(`find` yields the first match or `undefined`; `|| null` turns the latter
into the null sentinel, both modelled as `none`). -/
def findTransactionById (ts : List Transaction) (id : String) : Option Transaction :=
  ts.find? (fun t => t.transaction_id == id)

/-- `mapTransactionDescriptions()`:
`this.transactions.map(t => t.transaction_description)`. -/
def mapTransactionDescriptions (ts : List Transaction) : List String :=
  ts.map (fun t => t.transaction_description)

end TransactionAnalyzer

/-- Specification-side rendering of "the date matches every supplied
(non-null/non-zero) component; omitted components act as wildcards": if the
component argument is supplied (`some v`) and non-zero, the record's date
must be a valid date whose projected component equals `v`. -/
def matchesComponent (c : Option Int) (proj : Date → Int) (od : Option Date) : Prop :=
  ∀ v, c = some v → v ≠ 0 → ∃ d, od = some d ∧ proj d = v

/-- Sample record: a January 2019 debit of 100. -/
def sampleDebit : Transaction :=
  { transaction_id := "1"
    transaction_date := some ⟨2019, 1, 1⟩
    transaction_amount := 100
    transaction_type := "debit"
    transaction_description := "Payment one"
    merchant_name := "SuperMart"
    card_type := "Visa" }

/-- Sample record: a February 2019 credit of 50. -/
def sampleCredit : Transaction :=
  { transaction_id := "2"
    transaction_date := some ⟨2019, 2, 2⟩
    transaction_amount := 50
    transaction_type := "credit"
    transaction_description := "Payment two"
    merchant_name := "SuperMart"
    card_type := "Visa" }

/-- Sample record whose `transaction_date` string failed to parse
(an Invalid Date). -/
def sampleInvalid : Transaction :=
  { transaction_id := "3"
    transaction_date := none
    transaction_amount := 7
    transaction_type := "debit"
    transaction_description := "Broken date"
    merchant_name := "SuperMart"
    card_type := "Visa" }

/-- Sample record sharing `transaction_id` "1" with `sampleDebit` but
otherwise different, to exercise duplicate-id lookup. -/
def sampleDupId : Transaction :=
  { transaction_id := "1"
    transaction_date := some ⟨2020, 3, 4⟩
    transaction_amount := 9
    transaction_type := "credit"
    transaction_description := "Duplicate id"
    merchant_name := "OtherMart"
    card_type := "MasterCard" }

/-! ### Helper lemmas -/

theorem date_le_refl (d : Date) : Date.le d d :=
  Or.inr ⟨rfl, Or.inr ⟨rfl, Nat.le_refl _⟩⟩

theorem jdLe_none_right (x : Option Date) : jdLe x none = false := by
  cases x <;> rfl

theorem jdLt_none_left (x : Option Date) : jdLt none x = false := by
  cases x <;> rfl

theorem foldl_add_eq_sum (l : List Transaction) (a : ℚ) :
    l.foldl (fun total t => total + t.transaction_amount) a
      = a + (l.map (fun t => t.transaction_amount)).sum := by
  induction l generalizing a with
  | nil => simp
  | cons t l ih => simp [ih, add_assoc]

theorem sum_amount_filter_split (p : Transaction → Bool) (l : List Transaction) :
    ((l.filter p).map (fun t => t.transaction_amount)).sum
      + ((l.filter (fun t => !(p t))).map (fun t => t.transaction_amount)).sum
      = (l.map (fun t => t.transaction_amount)).sum := by
  induction l with
  | nil => simp
  | cons t l ih =>
    by_cases h : p t
    · simp [List.filter_cons, h]
      rw [← ih]; ring
    · simp [List.filter_cons, h]
      rw [← ih]; ring

theorem getCount?_bump (acc : List (String × Nat)) (k key : String) :
    getCount? (bump acc k) key
      = if k = key then some (getCount acc k + 1) else getCount? acc key := by
  induction acc with
  | nil =>
    by_cases h : k = key <;> simp [bump, getCount?, getCount, h]
  | cons p rest ih =>
    obtain ⟨k', n⟩ := p
    by_cases hk : k' = k
    · subst hk
      by_cases h : k' = key <;> simp [bump, getCount?, getCount, h]
    · by_cases h : k' = key
      · subst h
        have : ¬ k = k' := fun hc => hk hc.symm
        simp [bump, getCount?, getCount, hk, this]
      · simp [bump, getCount?, getCount, hk, h, ih]

theorem getCount_bump (acc : List (String × Nat)) (k key : String) :
    getCount (bump acc k) key
      = if k = key then getCount acc key + 1 else getCount acc key := by
  by_cases h : k = key
  · subst h
    simp [getCount, getCount?_bump]
  · simp [getCount, getCount?_bump, h]

theorem mem_keys_bump (acc : List (String × Nat)) (k key : String) :
    key ∈ (bump acc k).map Prod.fst ↔ key ∈ acc.map Prod.fst ∨ key = k := by
  induction acc with
  | nil => simp [bump, eq_comm]
  | cons p rest ih =>
    obtain ⟨k', n⟩ := p
    by_cases hk : k' = k
    · subst hk
      by_cases h : key = k' <;> simp [bump, h, eq_comm]
    · simp only [bump, if_neg hk, List.map_cons, List.mem_cons, ih]
      tauto

theorem bump_ne_nil (acc : List (String × Nat)) (k : String) :
    bump acc k ≠ [] := by
  cases acc with
  | nil => simp [bump]
  | cons p rest =>
    obtain ⟨k', n⟩ := p
    by_cases hk : k' = k <;> simp [bump, hk]

theorem foldl_bump_getCount {α : Type} (f : α → String) (l : List α)
    (acc : List (String × Nat)) (key : String) :
    getCount (l.foldl (fun a x => bump a (f x)) acc) key
      = getCount acc key + (l.filter (fun x => f x == key)).length := by
  induction l generalizing acc with
  | nil => simp
  | cons x l ih =>
    simp only [List.foldl_cons, ih, getCount_bump, List.filter_cons]
    by_cases h : f x = key
    · simp [h]; omega
    · simp [h]

theorem foldl_bump_mem_keys {α : Type} (f : α → String) (l : List α)
    (acc : List (String × Nat)) (key : String) :
    key ∈ (l.foldl (fun a x => bump a (f x)) acc).map Prod.fst
      ↔ key ∈ acc.map Prod.fst ∨ ∃ x ∈ l, f x = key := by
  induction l generalizing acc with
  | nil => simp
  | cons x l ih =>
    simp only [List.foldl_cons, ih, mem_keys_bump, List.mem_cons]
    constructor
    · rintro (⟨h | h⟩ | ⟨y, hy, hfy⟩)
      · exact Or.inl h
      · exact Or.inr ⟨x, Or.inl rfl, h.symm⟩
      · exact Or.inr ⟨y, Or.inr hy, hfy⟩
    · rintro (h | ⟨y, hy | hy, hfy⟩)
      · exact Or.inl (Or.inl h)
      · subst hy; exact Or.inl (Or.inr hfy.symm)
      · exact Or.inr ⟨y, hy, hfy⟩

theorem foldl_bump_ne_nil {α : Type} (f : α → String) (l : List α)
    (acc : List (String × Nat)) (h : acc ≠ []) :
    l.foldl (fun a x => bump a (f x)) acc ≠ [] := by
  induction l generalizing acc with
  | nil => exact h
  | cons x l ih => exact ih _ (bump_ne_nil _ _)

theorem find?_eq_some_split {α : Type} (p : α → Bool) (l : List α) (a : α)
    (h : l.find? p = some a) :
    p a = true ∧ ∃ l1 l2, l = l1 ++ a :: l2 ∧ ∀ x ∈ l1, p x = false := by
  induction l with
  | nil => simp at h
  | cons u l ih =>
    by_cases hu : p u
    · rw [List.find?_cons_of_pos _ hu] at h
      obtain rfl : u = a := by simpa using h
      exact ⟨hu, [], l, rfl, by simp⟩
    · rw [List.find?_cons_of_neg _ hu] at h
      obtain ⟨hpa, l1, l2, rfl, hl1⟩ := ih h
      exact ⟨hpa, u :: l1, l2, rfl, by
        intro x hx
        rcases List.mem_cons.mp hx with rfl | hx
        · exact Bool.of_not_eq_true hu
        · exact hl1 x hx⟩

theorem foldl_pick_last_max {α : Type} (f : α → Nat) (l : List α) (a : α) :
    (∀ x ∈ a :: l, f x ≤ f (l.foldl (fun p q => if f q < f p then p else q) a)) ∧
    ∃ l1 l2, a :: l = l1 ++ (l.foldl (fun p q => if f q < f p then p else q) a) :: l2 ∧
      ∀ x ∈ l2, f x < f (l.foldl (fun p q => if f q < f p then p else q) a) := by
  induction l generalizing a with
  | nil =>
    refine ⟨?_, [], [], by simp, by simp⟩
    intro x hx
    have hxa : x = a := by simpa using hx
    subst hxa
    exact Nat.le_refl _
  | cons x xs ih =>
    have hfold : (x :: xs).foldl (fun p q => if f q < f p then p else q) a
        = xs.foldl (fun p q => if f q < f p then p else q)
            (if f x < f a then a else x) := rfl
    by_cases h : f x < f a
    · rw [if_pos h] at hfold
      obtain ⟨hmax, l1, l2, hsplit, hafter⟩ := ih a
      rw [hfold]
      constructor
      · intro z hz
        rcases List.mem_cons.mp hz with rfl | hz
        · exact hmax z (List.mem_cons_self _ _)
        rcases List.mem_cons.mp hz with rfl | hz
        · exact le_trans (le_of_lt h) (hmax a (List.mem_cons_self _ _))
        · exact hmax z (List.mem_cons_of_mem _ hz)
      · cases l1 with
        | nil =>
          have ha : a = xs.foldl (fun p q => if f q < f p then p else q) a := by
            simpa using congrArg (fun w => w.head?) hsplit
          have hxs : xs = l2 := by
            simpa using congrArg (fun w => w.tail) hsplit
          refine ⟨[], x :: xs, by simpa using ha, ?_⟩
          intro z hz
          rcases List.mem_cons.mp hz with rfl | hz
          · exact lt_of_lt_of_le h (hmax a (List.mem_cons_self _ _))
          · exact hafter z (hxs ▸ hz)
        | cons c l1' =>
          have hc : c = a := by
            have := congrArg (fun w => w.head?) hsplit
            simpa using this.symm
          have hxs : xs = l1' ++
              (xs.foldl (fun p q => if f q < f p then p else q) a) :: l2 := by
            simpa using congrArg (fun w => w.tail) hsplit
          refine ⟨a :: x :: l1', l2, ?_, hafter⟩
          simpa using hxs
    · rw [if_neg h] at hfold
      obtain ⟨hmax, l1, l2, hsplit, hafter⟩ := ih x
      rw [hfold]
      constructor
      · intro z hz
        rcases List.mem_cons.mp hz with rfl | hz
        · exact le_trans (Nat.le_of_not_lt h) (hmax x (List.mem_cons_self _ _))
        · exact hmax z hz
      · exact ⟨a :: l1, l2, by simpa using hsplit, hafter⟩

theorem reduceNoInit_pick_spec (c : List (String × Nat))
    (hk : c.map Prod.fst ≠ []) :
    ∃ r, reduceNoInit (fun a b => if getCount c b < getCount c a then a else b)
          (c.map Prod.fst) = some r ∧
      r ∈ c.map Prod.fst ∧
      (∀ k ∈ c.map Prod.fst, getCount c k ≤ getCount c r) ∧
      ∃ l1 l2, c.map Prod.fst = l1 ++ r :: l2 ∧
        ∀ k ∈ l2, getCount c k < getCount c r := by
  cases hkeys : c.map Prod.fst with
  | nil => exact absurd hkeys hk
  | cons k krest =>
    obtain ⟨hmax, l1, l2, hsplit, hafter⟩ :=
      foldl_pick_last_max (getCount c) krest k
    refine ⟨krest.foldl (fun p q => if getCount c q < getCount c p then p else q) k,
      rfl, ?_, hmax, l1, l2, hsplit, hafter⟩
    rw [hsplit]
    exact List.mem_append_right _ (List.mem_cons_self _ _)

theorem jsComponent_iff (c : Option Int) (proj : Date → Int) (od : Option Date) :
    (TransactionAnalyzer.jsFalsy c || TransactionAnalyzer.jsComponentEq od c proj) = true
      ↔ matchesComponent c proj od := by
  cases c with
  | none =>
    simp [TransactionAnalyzer.jsFalsy, matchesComponent]
  | some v =>
    by_cases hv : v = 0
    · subst hv
      simp [TransactionAnalyzer.jsFalsy, matchesComponent]
    · cases od with
      | none =>
        simp [TransactionAnalyzer.jsFalsy, TransactionAnalyzer.jsComponentEq,
          matchesComponent, hv]
      | some d =>
        simp [TransactionAnalyzer.jsFalsy, TransactionAnalyzer.jsComponentEq,
          matchesComponent, hv]

/-! ### Claims -/

open TransactionAnalyzer

/-- C1 (code bug): the claim says `mostTransactionTypes()` returns "debit"
whenever the debit count is strictly greater than the credit count, but on a
store with one debit record and no credit record (debit count 1 > credit
count 0) the code returns "equal": the `count.credit` property is absent
(`undefined`), so both `>` comparisons are false. -/
theorem C1_mostTransactionTypes_absent_credit_equal :
    mostTransactionTypes [sampleDebit] = "equal" ∧
    (getTransactionByType [sampleDebit] "debit").length = 1 ∧
    (getTransactionByType [sampleDebit] "credit").length = 0 :=
  ⟨rfl, rfl, rfl⟩

/-- C2 (counterexample): on the two-record store with one January 2019 and
one February 2019 record the two labels tie at one record each and
"January 2019" is the first-seen label, yet `findMostTransactionsMonth`
returns "February 2019" — the first-encountered label does NOT win ties. -/
theorem C2_counterexample_first_label_loses_tie :
    findMostTransactionsMonth [sampleDebit, sampleCredit] = some "February 2019" ∧
    findMostTransactionsMonth [sampleDebit, sampleCredit] ≠ some "January 2019" ∧
    (monthCounts [sampleDebit, sampleCredit]).map Prod.fst
      = ["January 2019", "February 2019"] ∧
    getCount (monthCounts [sampleDebit, sampleCredit]) "January 2019"
      = getCount (monthCounts [sampleDebit, sampleCredit]) "February 2019" := by
  refine ⟨by decide, by decide, by decide, by decide⟩

/-- C2 (amended): for every non-empty store `findMostTransactionsMonth`
returns a month+year label `r` such that: the per-label counts are the
numbers of records with that label, the key list enumerates exactly the
labels occurring in the store (in first-seen order, by construction of the
counting reduce), `r` has the maximal count, and every label listed after
`r` has a strictly smaller count — i.e. among tied maximal labels the LAST
first-seen one wins. -/
theorem C2_findMostTransactionsMonth_last_max (ts : List Transaction)
    (h : ts ≠ []) :
    ∃ r, findMostTransactionsMonth ts = some r ∧
      (∀ k, getCount (monthCounts ts) k
        = (ts.filter (fun t => monthLabel t.transaction_date == k)).length) ∧
      (∀ k, k ∈ (monthCounts ts).map Prod.fst
        ↔ ∃ t ∈ ts, monthLabel t.transaction_date = k) ∧
      r ∈ (monthCounts ts).map Prod.fst ∧
      (∀ k ∈ (monthCounts ts).map Prod.fst,
        getCount (monthCounts ts) k ≤ getCount (monthCounts ts) r) ∧
      ∃ l1 l2, (monthCounts ts).map Prod.fst = l1 ++ r :: l2 ∧
        ∀ k ∈ l2, getCount (monthCounts ts) k < getCount (monthCounts ts) r := by
  have hkeys : (monthCounts ts).map Prod.fst ≠ [] := by
    cases ts with
    | nil => exact absurd rfl h
    | cons t ts' =>
      have hne : monthCounts (t :: ts') ≠ [] := by
        rw [monthCounts, List.foldl_cons]
        exact foldl_bump_ne_nil _ ts' _ (bump_ne_nil [] _)
      simpa using hne
  obtain ⟨r, hred, hmem, hmax, l1, l2, hsplit, hafter⟩ :=
    reduceNoInit_pick_spec (monthCounts ts) hkeys
  refine ⟨r, hred, ?_, ?_, hmem, hmax, l1, l2, hsplit, hafter⟩
  · intro k
    have hc := foldl_bump_getCount (fun t => monthLabel t.transaction_date) ts [] k
    simpa [monthCounts, getCount, getCount?] using hc
  · intro k
    have hk := foldl_bump_mem_keys (fun t => monthLabel t.transaction_date) ts [] k
    simpa [monthCounts] using hk

/-- C2 (witness): the amended theorem instantiated at the one-record store. -/
theorem C2_findMostTransactionsMonth_last_max_witness :
    ∃ r, findMostTransactionsMonth [sampleDebit] = some r ∧
      (∀ k, getCount (monthCounts [sampleDebit]) k
        = ([sampleDebit].filter (fun t => monthLabel t.transaction_date == k)).length) ∧
      (∀ k, k ∈ (monthCounts [sampleDebit]).map Prod.fst
        ↔ ∃ t ∈ [sampleDebit], monthLabel t.transaction_date = k) ∧
      r ∈ (monthCounts [sampleDebit]).map Prod.fst ∧
      (∀ k ∈ (monthCounts [sampleDebit]).map Prod.fst,
        getCount (monthCounts [sampleDebit]) k ≤ getCount (monthCounts [sampleDebit]) r) ∧
      ∃ l1 l2, (monthCounts [sampleDebit]).map Prod.fst = l1 ++ r :: l2 ∧
        ∀ k ∈ l2, getCount (monthCounts [sampleDebit]) k
          < getCount (monthCounts [sampleDebit]) r :=
  C2_findMostTransactionsMonth_last_max [sampleDebit] (List.cons_ne_nil _ _)

/-- C3: `calculateTotalAmountByDate` sums the amounts of exactly the records
whose date matches every supplied (non-null/non-zero) component — the code's
filter predicate holds iff each of year, month (1-indexed), day matches in
the sense of `matchesComponent`, omitted or zero components acting as
wildcards — and when nothing matches the result is 0. -/
theorem C3_calculateTotalAmountByDate_spec (ts : List Transaction)
    (year month day : Option Int) :
    calculateTotalAmountByDate ts year month day
      = ((ts.filter (byDatePred year month day)).map
          (fun t => t.transaction_amount)).sum ∧
    (∀ t, byDatePred year month day t = true ↔
      (matchesComponent year (fun d => d.year) t.transaction_date ∧
       matchesComponent month (fun d => (d.month : Int)) t.transaction_date ∧
       matchesComponent day (fun d => (d.day : Int)) t.transaction_date)) ∧
    ((∀ t ∈ ts, byDatePred year month day t = false) →
      calculateTotalAmountByDate ts year month day = 0) := by
  refine ⟨?_, ?_, ?_⟩
  · rw [calculateTotalAmountByDate, foldl_add_eq_sum, zero_add]
  · intro t
    rw [byDatePred, Bool.and_eq_true, Bool.and_eq_true,
      jsComponent_iff, jsComponent_iff, jsComponent_iff]
    tauto
  · intro hnone
    have hfil : ts.filter (byDatePred year month day) = [] :=
      List.filter_eq_nil_iff.mpr (fun t ht => by simp [hnone t ht])
    simp [calculateTotalAmountByDate, hfil]

/-- C3 (witness): a supplied year matching no record yields 0. -/
theorem C3_calculateTotalAmountByDate_spec_witness :
    calculateTotalAmountByDate [sampleDebit] (some 1999) none none = 0 :=
  (C3_calculateTotalAmountByDate_spec [sampleDebit] (some 1999) none none).2.2
    (by decide)

/-- C4: for every non-empty store the total amount splits as the debit total
plus the sum of the amounts of the non-debit records, and the total of the
empty store is 0. -/
theorem C4_total_splits_debit_nondebit (ts : List Transaction) :
    (ts ≠ [] → calculateTotalAmount ts
        = calculateTotalDebitAmount ts
          + ((ts.filter (fun t => !(t.transaction_type == "debit"))).map
              (fun t => t.transaction_amount)).sum) ∧
    calculateTotalAmount ([] : List Transaction) = 0 := by
  constructor
  · intro _
    rw [calculateTotalAmount, calculateTotalDebitAmount, getTransactionByType,
      foldl_add_eq_sum, foldl_add_eq_sum, zero_add, zero_add]
    exact (sum_amount_filter_split (fun t => t.transaction_type == "debit") ts).symm
  · rfl

/-- C4 (witness): the split evaluated on a two-record store. -/
theorem C4_total_splits_debit_nondebit_witness :
    calculateTotalAmount [sampleDebit, sampleCredit]
      = calculateTotalDebitAmount [sampleDebit, sampleCredit]
        + (([sampleDebit, sampleCredit].filter
            (fun t => !(t.transaction_type == "debit"))).map
            (fun t => t.transaction_amount)).sum :=
  (C4_total_splits_debit_nondebit [sampleDebit, sampleCredit]).1
    (List.cons_ne_nil _ _)

/-- C5: after `addTransaction`, `getAllTransaction` returns the old sequence
with the new record appended: length grows by exactly one, the last element
is the added record, and the prefix of the old length is the old sequence
unchanged.  (All query operations are pure functions of the stored list, so
nothing but `addTransaction` changes it.) -/
theorem C5_addTransaction_appends (ts : List Transaction) (t : Transaction) :
    getAllTransaction (addTransaction ts t) = getAllTransaction ts ++ [t] ∧
    (getAllTransaction (addTransaction ts t)).length
      = (getAllTransaction ts).length + 1 ∧
    (getAllTransaction (addTransaction ts t)).getLast? = some t ∧
    (getAllTransaction (addTransaction ts t)).take (getAllTransaction ts).length
      = getAllTransaction ts := by
  refine ⟨rfl, ?_, ?_, ?_⟩
  · simp [addTransaction, getAllTransaction]
  · simp [addTransaction, getAllTransaction, List.getLast?_concat]
  · simp [addTransaction, getAllTransaction, List.take_left]

/-- C6: with valid dates `s ≤ e`, `getTransactionsInDateRange` returns
exactly the records (in store order, being a filter) whose valid date `d`
satisfies `s ≤ d ∧ d ≤ e`; both endpoints are included; and
`getTransactionsBeforeDate` keeps exactly the records with date strictly
less than the cutoff. -/
theorem C6_range_inclusive_before_strict (ts : List Transaction)
    (s e c : Date) (hse : Date.le s e) :
    getTransactionsInDateRange ts (some s) (some e)
      = ts.filter (fun t => match t.transaction_date with
          | some d => decide (Date.le s d ∧ Date.le d e)
          | none => false) ∧
    (∀ t ∈ ts, (t.transaction_date = some s ∨ t.transaction_date = some e) →
      t ∈ getTransactionsInDateRange ts (some s) (some e)) ∧
    getTransactionsBeforeDate ts (some c)
      = ts.filter (fun t => match t.transaction_date with
          | some d => decide (Date.lt d c)
          | none => false) := by
  refine ⟨?_, ?_, ?_⟩
  · rw [getTransactionsInDateRange]
    apply List.filter_congr
    intro t _
    cases t.transaction_date with
    | none => rfl
    | some d => simp [jdLe, Bool.decide_and]
  · intro t ht hor
    rw [getTransactionsInDateRange]
    apply List.mem_filter.mpr
    refine ⟨ht, ?_⟩
    rcases hor with hds | hde
    · rw [hds]
      simp only [jdLe, Bool.and_eq_true, decide_eq_true_eq]
      exact ⟨date_le_refl s, hse⟩
    · rw [hde]
      simp only [jdLe, Bool.and_eq_true, decide_eq_true_eq]
      exact ⟨hse, date_le_refl e⟩
  · rw [getTransactionsBeforeDate]
    apply List.filter_congr
    intro t _
    cases t.transaction_date with
    | none => rfl
    | some d => simp [jdLt]

/-- C6 (witness): the range/before characterization instantiated on a
concrete store and concrete endpoints. -/
theorem C6_range_inclusive_before_strict_witness :
    getTransactionsInDateRange [sampleDebit, sampleCredit, sampleInvalid]
        (some ⟨2019, 1, 1⟩) (some ⟨2019, 2, 2⟩)
      = [sampleDebit, sampleCredit, sampleInvalid].filter
          (fun t => match t.transaction_date with
            | some d => decide (Date.le ⟨2019, 1, 1⟩ d ∧ Date.le d ⟨2019, 2, 2⟩)
            | none => false) ∧
    (∀ t ∈ [sampleDebit, sampleCredit, sampleInvalid],
      (t.transaction_date = some ⟨2019, 1, 1⟩ ∨
        t.transaction_date = some ⟨2019, 2, 2⟩) →
      t ∈ getTransactionsInDateRange [sampleDebit, sampleCredit, sampleInvalid]
            (some ⟨2019, 1, 1⟩) (some ⟨2019, 2, 2⟩)) ∧
    getTransactionsBeforeDate [sampleDebit, sampleCredit, sampleInvalid]
        (some ⟨2019, 2, 2⟩)
      = [sampleDebit, sampleCredit, sampleInvalid].filter
          (fun t => match t.transaction_date with
            | some d => decide (Date.lt d ⟨2019, 2, 2⟩)
            | none => false) :=
  C6_range_inclusive_before_strict [sampleDebit, sampleCredit, sampleInvalid]
    ⟨2019, 1, 1⟩ ⟨2019, 2, 2⟩ ⟨2019, 2, 2⟩ (by decide)

/-- C7: `findTransactionById` yields the null sentinel (`none`) exactly when
no record has the requested id, and any returned record has the requested id
and is the first such record in store order (every earlier record has a
different id). -/
theorem C7_findTransactionById_first_match (ts : List Transaction) (id : String) :
    (findTransactionById ts id = none ↔ ∀ t ∈ ts, t.transaction_id ≠ id) ∧
    (∀ t, findTransactionById ts id = some t →
      t.transaction_id = id ∧ ∃ l1 l2, ts = l1 ++ t :: l2 ∧
        ∀ u ∈ l1, u.transaction_id ≠ id) := by
  constructor
  · rw [findTransactionById, List.find?_eq_none]
    constructor
    · intro h t ht
      simpa using h t ht
    · intro h t ht
      simpa using h t ht
  · intro t hfind
    rw [findTransactionById] at hfind
    obtain ⟨hp, l1, l2, hsplit, hl1⟩ :=
      find?_eq_some_split (fun u => u.transaction_id == id) ts t hfind
    refine ⟨by simpa using hp, l1, l2, hsplit, ?_⟩
    intro u hu
    simpa using hl1 u hu

/-- C7 (witness): with two records sharing id "1", the record at the lower
index is the match, with nothing before it. -/
theorem C7_findTransactionById_first_match_witness :
    sampleDebit.transaction_id = "1" ∧
    ∃ l1 l2, [sampleDebit, sampleDupId] = l1 ++ sampleDebit :: l2 ∧
      ∀ u ∈ l1, u.transaction_id ≠ "1" :=
  (C7_findTransactionById_first_match [sampleDebit, sampleDupId] "1").2
    sampleDebit (by decide)

/-- C8: on a non-empty store the average is the total divided by the record
count; on the empty store the division is 0/0, a silent non-finite (NaN)
sentinel modelled as `none`, not an error. -/
theorem C8_average_total_div_count (ts : List Transaction) :
    (ts ≠ [] → calculateAverageTransactionAmount ts
        = some (calculateTotalAmount ts / (ts.length : ℚ))) ∧
    calculateAverageTransactionAmount ([] : List Transaction) = none := by
  constructor
  · intro h
    have hlen : ts.length ≠ 0 := fun h0 => h (List.length_eq_zero.mp h0)
    have hcast : (ts.length : ℚ) ≠ 0 := Nat.cast_ne_zero.mpr hlen
    simp [calculateAverageTransactionAmount, jsDiv, hcast]
  · simp [calculateAverageTransactionAmount, jsDiv, calculateTotalAmount]

/-- C8 (witness): the average of the two-record store. -/
theorem C8_average_total_div_count_witness :
    calculateAverageTransactionAmount [sampleDebit, sampleCredit]
      = some (calculateTotalAmount [sampleDebit, sampleCredit]
          / (([sampleDebit, sampleCredit] : List Transaction).length : ℚ)) :=
  (C8_average_total_div_count [sampleDebit, sampleCredit]).1
    (List.cons_ne_nil _ _)

/-- C9: a record whose `transaction_date` string did not parse (an Invalid
Date, `none`) is excluded from `getTransactionsInDateRange` and
`getTransactionsBeforeDate` for every choice of bounds, valid or not:
every comparison against its NaN time value is false.  (Both operations are
total functions — no date filter throws on a malformed date string.) -/
theorem C9_invalid_date_silently_excluded (ts : List Transaction)
    (s e c : Option Date) (t : Transaction) (ht : t ∈ ts)
    (hd : t.transaction_date = none) :
    t ∉ getTransactionsInDateRange ts s e ∧
    t ∉ getTransactionsBeforeDate ts c := by
  constructor
  · intro hmem
    rw [getTransactionsInDateRange] at hmem
    have hpred := (List.mem_filter.mp hmem).2
    rw [hd, jdLe_none_right] at hpred
    simp at hpred
  · intro hmem
    rw [getTransactionsBeforeDate] at hmem
    have hpred := (List.mem_filter.mp hmem).2
    rw [hd, jdLt_none_left] at hpred
    exact Bool.false_ne_true hpred

/-- C9 (witness): the invalid-date record is excluded for concrete bounds. -/
theorem C9_invalid_date_silently_excluded_witness :
    sampleInvalid ∉ getTransactionsInDateRange [sampleInvalid, sampleDebit]
        (some ⟨2018, 1, 1⟩) (some ⟨2020, 12, 31⟩) ∧
    sampleInvalid ∉ getTransactionsBeforeDate [sampleInvalid, sampleDebit]
        (some ⟨2020, 12, 31⟩) :=
  C9_invalid_date_silently_excluded [sampleInvalid, sampleDebit]
    (some ⟨2018, 1, 1⟩) (some ⟨2020, 12, 31⟩) (some ⟨2020, 12, 31⟩)
    sampleInvalid (List.mem_cons_self _ _) rfl

/-- C10: on any store with no debit record — empty or not — the label set of
`findMostDebitTransactionMonth` is empty, so its final `reduce` has no
initial value and throws (modelled as `none`). -/
theorem C10_findMostDebitTransactionMonth_throws (ts : List Transaction)
    (h : ∀ t ∈ ts, t.transaction_type ≠ "debit") :
    findMostDebitTransactionMonth ts = none := by
  have hfil : getTransactionByType ts "debit" = [] := by
    rw [getTransactionByType]
    exact List.filter_eq_nil_iff.mpr (fun t ht => by simp [h t ht])
  simp [findMostDebitTransactionMonth, hfil, monthCounts, reduceNoInit]

/-- C10 (witness): a non-empty store with only a credit record makes
`findMostDebitTransactionMonth` throw, though the store is not empty. -/
theorem C10_findMostDebitTransactionMonth_throws_witness :
    (∀ t ∈ [sampleCredit], t.transaction_type ≠ "debit") ∧
    findMostDebitTransactionMonth [sampleCredit] = none :=
  ⟨by decide, C10_findMostDebitTransactionMonth_throws [sampleCredit] (by decide)⟩
